import Mathlib

/-!
Shallow embedding of the cross-source duplicate-detection and
listing-normalization pipeline of the scraper-scripts repository
(duplicate_detector.py, ecaytrade_mls_filter.py, utilities/supabase_utils.py
and the currency converters of ecaytrade.py / cireba.py), together with
theorems settling the stated properties of that pipeline.

Modelling conventions:
* Python floats are modelled as rationals; round(x, 2) is modelled by rounding
  100 * x to the nearest integer with ties to even, the rounding CPython
  performs on the decimal value of a float.
* Python strings are Lean strings; s.lower() is modelled with Char.toLower
  (the inputs of interest are ASCII) and s.strip() removes surrounding
  whitespace.
* float(s) is modelled by pyFloat, a parser for the sign / digits / decimal
  point / exponent literal forms; the inf, nan and underscore-separated
  literal forms are outside the model.
* A raised exception is modelled with Except Unit.
-/

/-- Leading and trailing whitespace removed, as the Python strip method does. -/
def stripWs (l : List Char) : List Char :=
  ((l.dropWhile Char.isWhitespace).reverse.dropWhile Char.isWhitespace).reverse

/-- The lower() then strip() normalization applied to names and raw types. -/
def lowerStrip (s : String) : List Char :=
  stripWs (s.toList.map Char.toLower)

/-- The numeric value of a digit list, most significant digit first. -/
def natOfDigits (l : List Char) : ℕ :=
  l.foldl (fun a c => 10 * a + (c.toNat - 48)) 0

/-- Optional leading sign of a Python numeric literal; true means negative. -/
def takeSign : List Char → Bool × List Char
  | '+' :: t => (false, t)
  | '-' :: t => (true, t)
  | l => (false, l)

/-- Exponent part of a float literal: optional sign then at least one digit. -/
def expPart (l : List Char) : Option ℤ :=
  let p := takeSign l
  if p.2 ≠ [] ∧ p.2.all Char.isDigit then
    some (if p.1 then -(natOfDigits p.2 : ℤ) else (natOfDigits p.2 : ℤ))
  else none

/-- The syntactic content of a parsed float literal: sign, mantissa digits,
number of digits after the decimal point, exponent. -/
structure NumLit where
  neg : Bool
  digits : ℕ
  fracLen : ℕ
  exp : ℤ
deriving DecidableEq, Repr

/-- The char-level part of Python float(s): surrounding whitespace, an
optional sign, digits with an optional decimal point (at least one digit
overall) and an optional exponent. The inf, nan and underscore-separated
forms are outside the model. -/
def parseFloatLit (s : String) : Option NumLit :=
  let l := stripWs s.toList
  let p := takeSign l
  let intPart := p.2.takeWhile Char.isDigit
  let rest := p.2.dropWhile Char.isDigit
  let fr : List Char × List Char :=
    match rest with
    | '.' :: t => (t.takeWhile Char.isDigit, t.dropWhile Char.isDigit)
    | _ => ([], rest)
  if intPart ++ fr.1 = [] then none
  else
    match fr.2 with
    | [] => some ⟨p.1, natOfDigits (intPart ++ fr.1), fr.1.length, 0⟩
    | 'e' :: t => (expPart t).map fun k => ⟨p.1, natOfDigits (intPart ++ fr.1), fr.1.length, k⟩
    | 'E' :: t => (expPart t).map fun k => ⟨p.1, natOfDigits (intPart ++ fr.1), fr.1.length, k⟩
    | _ => none

/-- The rational value a float literal denotes. -/
def NumLit.val (n : NumLit) : ℚ :=
  (if n.neg then -1 else 1) * ((n.digits : ℚ) / (10 : ℚ) ^ n.fracLen) * (10 : ℚ) ^ n.exp

/-- Model of Python float(s), as a rational. -/
def pyFloat (s : String) : Option ℚ :=
  (parseFloatLit s).map NumLit.val

/-- Model of Python int(s): surrounding whitespace, an optional sign, at least
one digit. -/
def pyInt (s : String) : Option ℤ :=
  let p := takeSign (stripWs s.toList)
  if p.2 ≠ [] ∧ p.2.all Char.isDigit then
    some (if p.1 then -(natOfDigits p.2 : ℤ) else (natOfDigits p.2 : ℤ))
  else none

/-- Truncation toward zero, as Python int applied to a float value does. -/
def ratTrunc (q : ℚ) : ℤ :=
  if 0 ≤ q then ⌊q⌋ else -⌊-q⌋

/-- Round to the nearest integer with ties to even: the rounding CPython
round() performs on the exactly-represented value of its argument. -/
def roundHalfEven (q : ℚ) : ℤ :=
  if q - ⌊q⌋ < 1 / 2 then ⌊q⌋
  else if 1 / 2 < q - ⌊q⌋ then ⌊q⌋ + 1
  else if 2 ∣ ⌊q⌋ then ⌊q⌋ else ⌊q⌋ + 1

/-- Model of Python round(x, 2). -/
def pyRound2 (q : ℚ) : ℚ :=
  (roundHalfEven (100 * q) : ℚ) / 100

/-- The comma stripping price_str.replace applied before float(). -/
def stripCommas (s : String) : String :=
  ⟨s.toList.filter (fun c => c ≠ ',')⟩

/-- The Python substring test: the pattern occurs somewhere in the haystack. -/
def listContains : List Char → List Char → Bool
  | [], pat => pat.isEmpty
  | h :: t, pat => pat.isPrefixOf (h :: t) || listContains t pat

/-- Python any(k in raw for k in keywords). -/
def containsAnyKeyword (raw : List Char) (keywords : List String) : Bool :=
  keywords.any fun k => listContains raw k.toList

/-- The conversion-rate literal 1.2195121951219512195121951219512 appearing in
duplicate_detector.py, ecaytrade.py and cireba.py, as a rational. -/
def ciUsdRate : ℚ := 12195121951219512195121951219512 / 10 ^ 31

namespace SupabaseUtils

/-- normalize_listing_type of utilities/supabase_utils.py (lines 16-60):
keyword containment on the lowercased, stripped raw type, tested in the fixed
priority order of the source; a missing (None) raw type is modelled by the
empty string. -/
def normalize_listing_type (raw : String) : String :=
  if raw = "" then "Home"
  else
    let t := lowerStrip raw
    if containsAnyKeyword t ["land", "lot", "vacant"] then "Land"
    else if listContains t "commercial".toList then "Commercial"
    else if containsAnyKeyword t ["multi unit", "multi-unit"] then "Multi Unit"
    else if listContains t "duplex".toList then "Duplex"
    else if listContains t "triplex".toList then "Triplex"
    else if listContains t "townhouse".toList then "Townhouse"
    else if containsAnyKeyword t ["condo", "condominium", "unit"] then "Condo"
    else if listContains t "apartment".toList then "Apartment"
    else "Home"

end SupabaseUtils

/-- The keyword priority table as the specification states it: each row is the
keywords of one category, first row whose keyword occurs wins. -/
def keywordPriorityTable : List (List String × String) :=
  [(["land", "lot", "vacant"], "Land"),
   (["commercial"], "Commercial"),
   (["multi unit", "multi-unit"], "Multi Unit"),
   (["duplex"], "Duplex"),
   (["triplex"], "Triplex"),
   (["townhouse"], "Townhouse"),
   (["condo", "condominium", "unit"], "Condo"),
   (["apartment"], "Apartment")]

/-- First table row one of whose keywords occurs in the normalized raw type. -/
def specFirstHit (t : List Char) : List (List String × String) → Option String
  | [] => none
  | e :: rest => if containsAnyKeyword t e.1 then some e.2 else specFirstHit t rest

/-- The normalization the specification describes: the priority table applied
to the lowercased trimmed raw type, with Home as the default. -/
def specNormalizeType (raw : String) : String :=
  (specFirstHit (lowerStrip raw) keywordPriorityTable).getD "Home"

/-- A row of a reference table as both loaders select it:
id, name, price, currency, link, target_url. The stored price is modelled as
the rational its stored numeral denotes. -/
structure RefRow where
  id : ℕ
  name : String
  price : ℚ
  currency : String
  link : String
  target_url : String
deriving DecidableEq, Repr, Inhabited

/-- An entry of the in-memory reference cache (existing_listings_cache in
duplicate_detector.py, mls_listings in ecaytrade_mls_filter.py). -/
structure CacheEntry where
  id : ℕ
  name : String
  price_usd : ℚ
  link : String
  source : String
deriving DecidableEq, Repr

/-- A parsed listing dict: the optional dict fields are Option values and the
defaults of the .get calls of the source are the field defaults. -/
structure Listing where
  name : String := ""
  price : String := "0"
  currency : String := "US$"
  link : String := ""
  listing_type : String := ""
  sqft : Option String := none
  beds : Option String := none
  baths : Option String := none
  acres : Option String := none
  location : Option String := none
  mls_number : Option String := none
  image_link : Option String := none
deriving DecidableEq, Repr, Inhabited

/-- The pagination loop shared by load_existing_listings_cache
(duplicate_detector.py lines 81-100) and load_mls_listings
(ecaytrade_mls_filter.py lines 56-75): pages of 1000 rows are read with
range(offset, offset + 999); the loop stops after reading an empty page or a
page shorter than 1000. Returns the accumulated rows and how many page reads
were performed. -/
def loadPages (table : List α) (offset : ℕ) : List α × ℕ :=
  if _h1 : ((table.drop offset).take 1000).isEmpty then ([], 1)
  else if _h2 : ((table.drop offset).take 1000).length < 1000 then
    ((table.drop offset).take 1000, 1)
  else
    let rest := loadPages table (offset + 1000)
    ((table.drop offset).take 1000 ++ rest.1, rest.2 + 1)
termination_by table.length - offset
decreasing_by
  simp only [List.length_take, List.length_drop, not_lt] at _h2
  omega

namespace DuplicateDetector

/-- The class attribute ci_to_usd_rate (duplicate_detector.py line 44). -/
def ci_to_usd_rate : ℚ := ciUsdRate

/-- DuplicateDetector.convert_ci_to_usd (duplicate_detector.py lines 58-72).
In the CI$ branch the except handler evaluates float() again on the same
unparsable string, so for a truthy unparsable price the handler itself
raises: that path is modelled as an error. The US$ branch swallows the parse
failure and yields 0.0, and any other currency yields 0.0. -/
def convert_ci_to_usd (price_str currency : String) : Except Unit (String × ℚ) :=
  if currency = "CI$" ∧ price_str ≠ "" then
    match pyFloat (stripCommas price_str) with
    | some ci_amount => .ok ("US$", pyRound2 (ci_amount * ci_to_usd_rate))
    | none => .error ()
  else if currency = "US$" then
    .ok (currency, if price_str = "" then 0 else (pyFloat (stripCommas price_str)).getD 0)
  else
    .ok (currency, 0)

/-- The numeric core of convert_ci_to_usd (lines 62-64, 69), for an amount
already available as a number; the loader applies the converter to
str(price) of a stored numeric price, whose str then float round trip is the
identity in the rational model. -/
def convert_amount (a : ℚ) (currency : String) : String × ℚ :=
  if currency = "CI$" then ("US$", pyRound2 (a * ci_to_usd_rate))
  else if currency = "US$" then (currency, a)
  else (currency, 0)

/-- extract_source_from_url (duplicate_detector.py lines 124-131). -/
def extract_source_from_url (url : String) : String :=
  if listContains url.toList "cireba.com".toList then "cireba"
  else if listContains url.toList "ecaytrade.com".toList then "ecaytrade"
  else "unknown"

/-- The per-row cache conversion of load_existing_listings_cache
(duplicate_detector.py lines 102-115): the stored price and currency go
through convert_ci_to_usd before the row enters the cache. -/
def cache_entry_of_row (row : RefRow) : CacheEntry :=
  { id := row.id
    name := row.name
    price_usd := (convert_amount row.price row.currency).2
    link := row.link
    source := extract_source_from_url row.target_url }

/-- exact_price_match (duplicate_detector.py lines 133-135). -/
def exact_price_match (price1_usd price2_usd : ℚ) (tolerance : ℚ := 100) : Bool :=
  decide (|price1_usd - price2_usd| ≤ tolerance)

/-- Longest common subsequence computation, on fuel bounding the summed
length (each step consumes at least one char of one list). -/
def lcsAux : ℕ → List Char → List Char → ℕ
  | 0, _, _ => 0
  | _ + 1, [], _ => 0
  | _ + 1, _ :: _, [] => 0
  | fuel + 1, a :: as, b :: bs =>
    if a = b then lcsAux fuel as bs + 1
    else max (lcsAux fuel (a :: as) bs) (lcsAux fuel as (b :: bs))

/-- Longest common subsequence length of two char lists. -/
def lcsLen (a b : List Char) : ℕ :=
  lcsAux (a.length + b.length) a b

/-- Modelled from the spec: fuzz.ratio of the external fuzzywuzzy package,
which is not part of this repository; the spec describes it as a normalized
edit-distance similarity in [0, 100]. Modelled as the indel-distance
similarity 200 * lcs / (len1 + len2), without the final integer rounding. -/
def fuzzScore (a b : List Char) : ℚ :=
  if a.length + b.length = 0 then 100
  else (200 * lcsLen a b : ℚ) / ((a.length + b.length : ℕ) : ℚ)

/-- fuzzy_name_match (duplicate_detector.py lines 137-148): 0.0 when either
name is empty, otherwise the fuzz score of the lowercased stripped names. -/
def fuzzy_name_match (name1 name2 : String) : ℚ :=
  if name1 = "" ∨ name2 = "" then 0
  else fuzzScore (lowerStrip name1) (lowerStrip name2)

/-- check_duplicate (duplicate_detector.py lines 150-166): the first cache
entry that passes the price gate and then the fuzzy-name gate, together with
its similarity score. -/
def check_duplicate (cache : List CacheEntry) (new_name : String) (new_price_usd : ℚ) :
    Option (CacheEntry × ℚ) :=
  match cache with
  | [] => none
  | existing :: rest =>
    if exact_price_match new_price_usd existing.price_usd then
      if 85 ≤ fuzzy_name_match new_name existing.name then
        some (existing, fuzzy_name_match new_name existing.name)
      else check_duplicate rest new_name new_price_usd
    else check_duplicate rest new_name new_price_usd

/-- The processed listing built by process_listing (lines 182-192). -/
structure Processed where
  base : Listing
  price_usd : ℚ
  original_currency : String
  original_price : String
  source_url : String
  source : String
deriving DecidableEq, Repr

/-- The mutable state of a DuplicateDetector instance (lines 39-44), without
the external client handle. -/
structure DetectorState where
  existing_listings_cache : List CacheEntry := []
  duplicates_found : List (Processed × CacheEntry × ℚ) := []
  new_listings : List Processed := []
deriving DecidableEq, Repr

/-- The processed_listing dict built at duplicate_detector.py lines 182-192:
the input listing updated with price_usd, the original price fields, the
source url and the derived source. The update also overwrites the price key
with str(int(price_usd)) and the currency key with US$; those two mutated
keys are not separate fields here because every later read uses price_usd
(get_new_listings_for_save line 305) or the constant US$ (line 325). -/
def mkProcessed (listing : Listing) (price_usd : ℚ) (source_url : String) : Processed :=
  { base := listing
    price_usd := price_usd
    original_currency := listing.currency
    original_price := listing.price
    source_url := source_url
    source := extract_source_from_url source_url }

/-- process_listing (duplicate_detector.py lines 168-205): convert the price,
skip below the 200000 threshold, check for a duplicate against the cache and
append to duplicates_found or new_listings. An uncaught conversion error
propagates out. -/
def process_listing (st : DetectorState) (listing : Listing) (source_url : String) :
    Except Unit DetectorState :=
  match convert_ci_to_usd listing.price listing.currency with
  | .error e => .error e
  | .ok pr =>
    if pr.2 < 200000 then .ok st
    else
      match check_duplicate st.existing_listings_cache listing.name pr.2 with
      | some m =>
        .ok { st with duplicates_found :=
          st.duplicates_found ++ [(mkProcessed listing pr.2 source_url, m)] }
      | none =>
        .ok { st with new_listings :=
          st.new_listings ++ [mkProcessed listing pr.2 source_url] }

/-- The inner loop of process_ecaytrade_listings over the listings of one
source url (lines 378-379). -/
def processListingsFrom (st : DetectorState) (source_url : String) :
    List Listing → Except Unit DetectorState
  | [] => .ok st
  | l :: rest =>
    match process_listing st l source_url with
    | .error e => .error e
    | .ok st2 => processListingsFrom st2 source_url rest

/-- The outer loop of process_ecaytrade_listings over
parsed_listings_by_url, modelled as an association list (lines 374-379). -/
def processAllBatches (st : DetectorState) :
    List (String × List Listing) → Except Unit DetectorState
  | [] => .ok st
  | b :: rest =>
    match processListingsFrom st b.1 b.2 with
    | .error e => .error e
    | .ok st2 => processAllBatches st2 rest

/-- The observable outcome of the webhook POST: some HTTP status, or a raised
request exception. -/
inductive WebhookOutcome where
  | status (code : ℕ)
  | raised
deriving DecidableEq, Repr

/-- send_batch_webhook (duplicate_detector.py lines 207-270): True when there
is nothing to send; True for a POST that returns, whatever its status code
(non-200 is logged and ignored); False only when the POST raises. -/
def send_batch_webhook (duplicates_found : List (Processed × CacheEntry × ℚ))
    (outcome : WebhookOutcome) : Bool :=
  if duplicates_found.isEmpty then true
  else
    match outcome with
    | .status _ => true
    | .raised => false

/-- A row prepared for the storage insert by get_new_listings_for_save. The
acres key, added only when its parse succeeded, is an Option field. -/
structure Row where
  target_url : String
  mls_number : Option String
  name : String
  sqft : Option ℤ
  beds : Option ℤ
  baths : Option ℤ
  location : Option String
  currency : String
  price : ℚ
  link : String
  image_link : Option String
  type : String
  acres : Option ℚ
deriving DecidableEq, Repr

/-- Truthiness of an optional string field, as the if listing.get tests of
the source use it. -/
def truthy : Option String → Bool
  | none => false
  | some s => s ≠ ""

/-- The per-listing body of get_new_listings_for_save (duplicate_detector.py
lines 282-336): best-effort coercion of the optional numeric fields, price
taken from price_usd, type from normalize_listing_type. -/
def prepare_row (p : Processed) : Row :=
  { target_url := p.source_url
    mls_number := p.base.mls_number
    name := p.base.name
    sqft := if truthy p.base.sqft then pyInt (stripCommas (p.base.sqft.getD "")) else none
    beds := if truthy p.base.beds then (pyFloat (p.base.beds.getD "")).map ratTrunc else none
    baths := if truthy p.base.baths then (pyFloat (p.base.baths.getD "")).map ratTrunc else none
    location := p.base.location
    currency := "US$"
    price := p.price_usd
    link := p.base.link
    image_link := p.base.image_link
    type := SupabaseUtils.normalize_listing_type p.base.listing_type
    acres := if truthy p.base.acres then pyFloat (p.base.acres.getD "") else none }

/-- process_ecaytrade_listings (duplicate_detector.py lines 353-394) after a
successful cache load, with the loaded cache and the webhook outcome as
parameters (the phase 1 read and the POST are external effects). Returns the
(webhook_success, prepared_listings) pair of the source. -/
def process_ecaytrade_listings (cache : List CacheEntry)
    (parsed_listings_by_url : List (String × List Listing))
    (outcome : WebhookOutcome) : Except Unit (Bool × List Row) :=
  match processAllBatches { existing_listings_cache := cache } parsed_listings_by_url with
  | .error e => .error e
  | .ok st =>
    .ok (send_batch_webhook st.duplicates_found outcome, st.new_listings.map prepare_row)

end DuplicateDetector

namespace MLSListingDetector

/-- The per-row cache accumulation of load_mls_listings
(ecaytrade_mls_filter.py lines 77-88): the stored price is taken as already
USD, with no conversion applied, whatever the currency column holds. -/
def mls_entry_of_row (row : RefRow) : CacheEntry :=
  { id := row.id
    name := row.name
    price_usd := row.price
    link := row.link
    source := DuplicateDetector.extract_source_from_url row.target_url }

end MLSListingDetector

/-- The value a scraper converter returns in its price position: either the
stringified rounded number (modelled by the rational it denotes) or the
original price string passed through unchanged. -/
inductive PriceVal where
  | num (q : ℚ)
  | raw (s : String)
deriving DecidableEq, Repr

namespace Ecaytrade

/-- convert_ci_to_usd of ecaytrade.py (lines 37-46): parsable CI$ prices are
converted and returned as str(round(usd, 2)); an unparsable CI$ price, an
empty price, and every non-CI$ currency return the input pair unchanged. -/
def convert_ci_to_usd (price_str currency : String) : String × PriceVal :=
  if currency = "CI$" ∧ price_str ≠ "" then
    match pyFloat (stripCommas price_str) with
    | some ci_amount => ("US$", .num (pyRound2 (ci_amount * ciUsdRate)))
    | none => (currency, .raw price_str)
  else (currency, .raw price_str)

end Ecaytrade

namespace Cireba

/-- convert_ci_to_usd of cireba.py (lines 101-110), textually identical to the
converter of ecaytrade.py. -/
def convert_ci_to_usd (price_str currency : String) : String × PriceVal :=
  if currency = "CI$" ∧ price_str ≠ "" then
    match pyFloat (stripCommas price_str) with
    | some ci_amount => ("US$", .num (pyRound2 (ci_amount * ciUsdRate)))
    | none => (currency, .raw price_str)
  else (currency, .raw price_str)

end Cireba

/-- The rounding the specification claims: round half-up to 2 decimal places
(Mathlib round sends x to the floor of x + 1/2, which is half-up). -/
def specRound2HalfUp (q : ℚ) : ℚ :=
  ((round (100 * q) : ℤ) : ℚ) / 100

/-- The concatenation of all candidate lists of all source urls, in order:
the candidate population process_ecaytrade_listings iterates over. -/
def allCandidates (bs : List (String × List Listing)) : List Listing :=
  bs.foldr (fun b acc => b.2 ++ acc) []

/-- roundHalfEven lands within a half of its argument, and a tie is resolved
to the even integer. -/
theorem roundHalfEven_close (x : ℚ) :
    |((roundHalfEven x : ℤ) : ℚ) - x| < 1 / 2 ∨
      (|((roundHalfEven x : ℤ) : ℚ) - x| = 1 / 2 ∧ Even (roundHalfEven x)) := by
  have h1 : (⌊x⌋ : ℚ) ≤ x := Int.floor_le x
  have h2 : x < ⌊x⌋ + 1 := Int.lt_floor_add_one x
  unfold roundHalfEven
  split_ifs with ha hb hc
  · left
    rw [abs_sub_comm, abs_of_nonneg (by linarith)]
    linarith
  · left
    push_cast
    rw [abs_of_nonneg (by linarith)]
    linarith
  · have hfr : x - ⌊x⌋ = 1 / 2 := le_antisymm (not_lt.1 hb) (not_lt.1 ha)
    right
    constructor
    · rw [abs_sub_comm, abs_of_nonneg (by linarith)]
      linarith
    · exact even_iff_two_dvd.mpr hc
  · have hfr : x - ⌊x⌋ = 1 / 2 := le_antisymm (not_lt.1 hb) (not_lt.1 ha)
    right
    constructor
    · push_cast
      rw [abs_of_nonneg (by linarith)]
      linarith
    · rcases Int.even_or_odd ⌊x⌋ with he | ho
      · exact absurd (even_iff_two_dvd.mp he) hc
      · exact ho.add_one

/-- C2: the specification says an unparsable price (with currency CI$ or US$)
must yield price_usd 0.0 without aborting the batch. The US$ branch does so,
but the CI$ except handler re-parses the same unparsable string and so
re-raises: a CI$ listing with an unparsable price aborts the whole batch
before the remaining candidates are processed. -/
theorem C2_ci_unparsable_aborts :
    DuplicateDetector.convert_ci_to_usd "abc" "CI$" = .error () ∧
    DuplicateDetector.convert_ci_to_usd "abc" "US$" = .ok ("US$", 0) ∧
    DuplicateDetector.processListingsFrom { existing_listings_cache := [] } "u"
      [{ name := "x", price := "abc", currency := "CI$", link := "l1" },
       { name := "y", price := "500000", currency := "US$", link := "l2" }] = .error () := by
  have h0 : stripCommas "abc" = "abc" := by decide
  have h1 : parseFloatLit "abc" = none := by decide
  refine ⟨?_, ?_, ?_⟩
  · simp [DuplicateDetector.convert_ci_to_usd, pyFloat, h0, h1]
  · simp [DuplicateDetector.convert_ci_to_usd, pyFloat, h0, h1]
  · simp [DuplicateDetector.processListingsFrom, DuplicateDetector.process_listing,
      DuplicateDetector.convert_ci_to_usd, pyFloat, h0, h1]

/-- C3, counterexample: the claim asserts convert(A, US$) = round(A, 2) with
half-up rounding; at A = 0.567 the converter returns 0.567 unchanged while
the claimed rounding gives 0.57. -/
theorem C3_counterexample :
    (DuplicateDetector.convert_amount (567 / 1000) "US$").2 = 567 / 1000 ∧
    DuplicateDetector.convert_ci_to_usd "0.567" "US$" = .ok ("US$", 567 / 1000) ∧
    specRound2HalfUp (567 / 1000) = 57 / 100 ∧
    ((567 : ℚ) / 1000) ≠ 57 / 100 := by
  refine ⟨?_, ?_, ?_, by norm_num⟩
  · simp [DuplicateDetector.convert_amount]
  · have h0 : parseFloatLit (stripCommas "0.567") = some ⟨false, 567, 3, 0⟩ := by decide
    simp [DuplicateDetector.convert_ci_to_usd, pyFloat, h0, NumLit.val]
    norm_num
  · norm_num [specRound2HalfUp, round_eq]

/-- C3, amended: a US$ amount is returned unchanged, with no rounding at all;
a CI$ amount is multiplied by the fixed rate and rounded to 2 decimal places
with ties to even (the rounding Python round performs), not half-up. -/
theorem C3_rounding_amended (A : ℚ) :
    (DuplicateDetector.convert_amount A "US$").2 = A ∧
    ∃ n : ℤ, (DuplicateDetector.convert_amount A "CI$").2 = (n : ℚ) / 100 ∧
      (|(n : ℚ) - 100 * (A * ciUsdRate)| < 1 / 2 ∨
        (|(n : ℚ) - 100 * (A * ciUsdRate)| = 1 / 2 ∧ Even n)) := by
  constructor
  · simp [DuplicateDetector.convert_amount]
  · refine ⟨roundHalfEven (100 * (A * ciUsdRate)), ?_, roundHalfEven_close _⟩
    simp [DuplicateDetector.convert_amount, pyRound2, DuplicateDetector.ci_to_usd_rate]

/-- C4, counterexample: the duplicate-detector loader does convert: a
reference row stored with currency CI$ and price 100000 enters the cache
with price_usd 121951.22, not with its stored price. -/
theorem C4_counterexample :
    (DuplicateDetector.cache_entry_of_row
      { id := 1, name := "x", price := 100000, currency := "CI$", link := "l",
        target_url := "https://www.cireba.com/a" }).price_usd = 12195122 / 100 ∧
    ((12195122 : ℚ) / 100) ≠ 100000 := by
  constructor
  · simp only [DuplicateDetector.cache_entry_of_row, DuplicateDetector.convert_amount,
      pyRound2, DuplicateDetector.ci_to_usd_rate, ciUsdRate]
    norm_num [roundHalfEven]
  · norm_num

/-- C4, amended: the MLS-filter loader takes every stored price as already
USD with no conversion; the duplicate-detector loader does so only for US$
rows, and converts CI$ rows with the fixed rate. -/
theorem C4_loader_amended (row : RefRow) :
    (MLSListingDetector.mls_entry_of_row row).price_usd = row.price ∧
    (row.currency = "US$" →
      (DuplicateDetector.cache_entry_of_row row).price_usd = row.price) ∧
    (row.currency = "CI$" →
      (DuplicateDetector.cache_entry_of_row row).price_usd = pyRound2 (row.price * ciUsdRate)) := by
  refine ⟨rfl, fun h => ?_, fun h => ?_⟩
  · simp [DuplicateDetector.cache_entry_of_row, DuplicateDetector.convert_amount, h]
  · simp [DuplicateDetector.cache_entry_of_row, DuplicateDetector.convert_amount, h,
      DuplicateDetector.ci_to_usd_rate]

/-- C5: a duplicate report whose POST raises flips the success value returned
to the caller (which then skips saving), while a non-200 status does not;
the partition results and the prepared rows are the same either way. -/
theorem C5_webhook_failure_flips_success :
    DuplicateDetector.process_ecaytrade_listings
      [{ id := 1, name := "ab", price_usd := 250000, link := "l1", source := "cireba" }]
      [("u", [{ name := "ab", price := "250000", currency := "US$", link := "l2" }])]
      (.status 500) = .ok (true, []) ∧
    DuplicateDetector.process_ecaytrade_listings
      [{ id := 1, name := "ab", price_usd := 250000, link := "l1", source := "cireba" }]
      [("u", [{ name := "ab", price := "250000", currency := "US$", link := "l2" }])]
      .raised = .ok (false, []) := by
  have h0 : stripCommas "250000" = "250000" := by decide
  have h1 : parseFloatLit "250000" = some ⟨false, 250000, 0, 0⟩ := by decide
  have h2 : lowerStrip "ab" = ['a', 'b'] := by decide
  have h3 : DuplicateDetector.lcsLen ['a', 'b'] ['a', 'b'] = 2 := by decide
  have h4 : DuplicateDetector.fuzzy_name_match "ab" "ab" = 100 := by
    simp [DuplicateDetector.fuzzy_name_match, DuplicateDetector.fuzzScore, h2, h3]
    norm_num
  constructor <;>
  · simp [DuplicateDetector.process_ecaytrade_listings, DuplicateDetector.processAllBatches,
      DuplicateDetector.processListingsFrom, DuplicateDetector.process_listing,
      DuplicateDetector.convert_ci_to_usd, pyFloat, h0, h1, NumLit.val,
      DuplicateDetector.check_duplicate, DuplicateDetector.exact_price_match, h4,
      DuplicateDetector.send_batch_webhook]
    norm_num

/-- C7, counterexample: on an unparsable CI$ price the detector converter
raises while both scraper converters return the input pair unchanged, so the
converters are not identical in behaviour. -/
theorem C7_counterexample :
    DuplicateDetector.convert_ci_to_usd "12a" "CI$" = .error () ∧
    Ecaytrade.convert_ci_to_usd "12a" "CI$" = ("CI$", .raw "12a") ∧
    Cireba.convert_ci_to_usd "12a" "CI$" = ("CI$", .raw "12a") := by
  have h0 : stripCommas "12a" = "12a" := by decide
  have h1 : parseFloatLit "12a" = none := by decide
  refine ⟨?_, ?_, ?_⟩ <;>
    simp [DuplicateDetector.convert_ci_to_usd, Ecaytrade.convert_ci_to_usd,
      Cireba.convert_ci_to_usd, pyFloat, h0, h1]

/-- C7, amended: on parsable non-empty price strings the three converters
agree numerically: for CI$ all three produce the same rounded USD amount
(the scrapers as a string); for US$ the detector returns the parsed amount
and the scrapers return the input string, which denotes the same amount. -/
theorem C7_converters_amended (s : String) (q : ℚ)
    (h1 : pyFloat (stripCommas s) = some q) (h2 : s ≠ "") :
    DuplicateDetector.convert_ci_to_usd s "CI$" = .ok ("US$", pyRound2 (q * ciUsdRate)) ∧
    Ecaytrade.convert_ci_to_usd s "CI$" = ("US$", .num (pyRound2 (q * ciUsdRate))) ∧
    Cireba.convert_ci_to_usd s "CI$" = ("US$", .num (pyRound2 (q * ciUsdRate))) ∧
    DuplicateDetector.convert_ci_to_usd s "US$" = .ok ("US$", q) ∧
    Ecaytrade.convert_ci_to_usd s "US$" = ("US$", .raw s) ∧
    Cireba.convert_ci_to_usd s "US$" = ("US$", .raw s) := by
  refine ⟨?_, ?_, ?_, ?_, ?_, ?_⟩ <;>
    simp [DuplicateDetector.convert_ci_to_usd, Ecaytrade.convert_ci_to_usd,
      Cireba.convert_ci_to_usd, DuplicateDetector.ci_to_usd_rate, h1, h2]

/-- C7, witness: the amended statement at the parsable price 1,000. -/
theorem C7_converters_witness :
    DuplicateDetector.convert_ci_to_usd "1,000" "CI$" =
      .ok ("US$", pyRound2 (1000 * ciUsdRate)) ∧
    Ecaytrade.convert_ci_to_usd "1,000" "CI$" = ("US$", .num (pyRound2 (1000 * ciUsdRate))) ∧
    Cireba.convert_ci_to_usd "1,000" "CI$" = ("US$", .num (pyRound2 (1000 * ciUsdRate))) ∧
    DuplicateDetector.convert_ci_to_usd "1,000" "US$" = .ok ("US$", 1000) ∧
    Ecaytrade.convert_ci_to_usd "1,000" "US$" = ("US$", .raw "1,000") ∧
    Cireba.convert_ci_to_usd "1,000" "US$" = ("US$", .raw "1,000") :=
  C7_converters_amended "1,000" 1000
    (by
      have hp : parseFloatLit (stripCommas "1,000") = some ⟨false, 1000, 0, 0⟩ := by decide
      simp [pyFloat, hp, NumLit.val])
    (by decide)

namespace DuplicateDetector

/-- check_duplicate returns a match exactly when some cache entry passes both
gates: price within the 100 USD tolerance, then fuzzy similarity at least 85. -/
theorem check_duplicate_isSome_iff (cache : List CacheEntry) (new_name : String) (p : ℚ) :
    (check_duplicate cache new_name p).isSome ↔
      ∃ e ∈ cache, |p - e.price_usd| ≤ 100 ∧ 85 ≤ fuzzy_name_match new_name e.name := by
  induction cache with
  | nil => simp [check_duplicate]
  | cons ex rest ih =>
    by_cases hpg : |p - ex.price_usd| ≤ 100
    · by_cases hfz : 85 ≤ fuzzy_name_match new_name ex.name
      · simp only [check_duplicate, exact_price_match, decide_eq_true_eq, hpg, if_true, hfz,
          if_pos]
        simp only [Option.isSome_some, true_iff]
        exact ⟨ex, List.mem_cons_self _ _, hpg, hfz⟩
      · simp only [check_duplicate, exact_price_match, decide_eq_true_eq, hpg, if_true,
          if_neg hfz]
        rw [ih]
        constructor
        · rintro ⟨e, he, h⟩
          exact ⟨e, List.mem_cons_of_mem _ he, h⟩
        · rintro ⟨e, he, h⟩
          rcases List.mem_cons.1 he with rfl | he2
          · exact absurd h.2 hfz
          · exact ⟨e, he2, h⟩
    · simp only [check_duplicate, exact_price_match]
      rw [if_neg (by simpa using hpg)]
      rw [ih]
      constructor
      · rintro ⟨e, he, h⟩
        exact ⟨e, List.mem_cons_of_mem _ he, h⟩
      · rintro ⟨e, he, h⟩
        rcases List.mem_cons.1 he with rfl | he2
        · exact absurd h.1 hpg
        · exact ⟨e, he2, h⟩

/-- The similarity score of a returned match passed the 85 gate. -/
theorem check_duplicate_score_ge (cache : List CacheEntry) (new_name : String) (p : ℚ)
    (e : CacheEntry) (s : ℚ) (h : check_duplicate cache new_name p = some (e, s)) :
    85 ≤ s := by
  induction cache with
  | nil => simp [check_duplicate] at h
  | cons ex rest ih =>
    simp only [check_duplicate] at h
    split at h
    · split at h
      · rename_i hfz
        obtain ⟨he, hs⟩ := Prod.mk.injEq .. ▸ Option.some.inj h
        exact hs ▸ hfz
      · exact ih h
    · exact ih h

/-- One inner-loop pass over candidates that all convert at or above the
threshold: the run succeeds, leaves the cache untouched and distributes
exactly the input candidates over the two accumulators. -/
theorem processListingsFrom_ok (u : String) (ls : List Listing) :
    ∀ st : DetectorState,
      (∀ l ∈ ls, ∃ c p, convert_ci_to_usd l.price l.currency = .ok (c, p) ∧ 200000 ≤ p) →
      ∃ dn dd,
        processListingsFrom st u ls =
          .ok { existing_listings_cache := st.existing_listings_cache,
                duplicates_found := st.duplicates_found ++ dd,
                new_listings := st.new_listings ++ dn } ∧
        (dn.map Processed.base ++ dd.map fun x => x.1.base).Perm ls := by
  induction ls with
  | nil =>
    intro st _
    exact ⟨[], [], by simp [processListingsFrom], by simp⟩
  | cons l rest ih =>
    intro st hall
    obtain ⟨c, p, hconv, hp⟩ := hall l (List.mem_cons_self _ _)
    have hrest : ∀ l2 ∈ rest, ∃ c p,
        convert_ci_to_usd l2.price l2.currency = .ok (c, p) ∧ 200000 ≤ p :=
      fun l2 h2 => hall l2 (List.mem_cons_of_mem _ h2)
    have hnl : ¬ (p < 200000) := not_lt.2 hp
    cases hd : check_duplicate st.existing_listings_cache l.name p with
    | some m =>
      have hstep : process_listing st l u =
          .ok { st with duplicates_found :=
            st.duplicates_found ++ [(mkProcessed l p u, m)] } := by
        simp [process_listing, hconv, hnl, hd]
      obtain ⟨dn, dd, hrun, hperm⟩ := ih { st with duplicates_found :=
        st.duplicates_found ++ [(mkProcessed l p u, m)] } hrest
      refine ⟨dn, (mkProcessed l p u, m) :: dd, ?_, ?_⟩
      · simp only [processListingsFrom, hstep]
        rw [hrun]
        simp
      · simp only [List.map_cons, mkProcessed]
        exact List.perm_middle.trans (hperm.cons l)
    | none =>
      have hstep : process_listing st l u =
          .ok { st with new_listings := st.new_listings ++ [mkProcessed l p u] } := by
        simp [process_listing, hconv, hnl, hd]
      obtain ⟨dn, dd, hrun, hperm⟩ := ih { st with new_listings :=
        st.new_listings ++ [mkProcessed l p u] } hrest
      refine ⟨mkProcessed l p u :: dn, dd, ?_, ?_⟩
      · simp only [processListingsFrom, hstep]
        rw [hrun]
        simp
      · simpa [mkProcessed] using hperm.cons l

/-- The whole batch run, over every source url: the accumulated outputs are a
permutation of the concatenated candidate population. -/
theorem processAllBatches_ok (bs : List (String × List Listing)) :
    ∀ st : DetectorState,
      (∀ b ∈ bs, ∀ l ∈ b.2,
        ∃ c p, convert_ci_to_usd l.price l.currency = .ok (c, p) ∧ 200000 ≤ p) →
      ∃ dn dd,
        processAllBatches st bs =
          .ok { existing_listings_cache := st.existing_listings_cache,
                duplicates_found := st.duplicates_found ++ dd,
                new_listings := st.new_listings ++ dn } ∧
        (dn.map Processed.base ++ dd.map fun x => x.1.base).Perm (allCandidates bs) := by
  induction bs with
  | nil =>
    intro st _
    exact ⟨[], [], by simp [processAllBatches], by simp [allCandidates]⟩
  | cons b rest ih =>
    intro st hall
    obtain ⟨dn1, dd1, hrun1, hperm1⟩ :=
      processListingsFrom_ok b.1 b.2 st (hall b (List.mem_cons_self _ _))
    have hrest : ∀ b2 ∈ rest, ∀ l ∈ b2.2,
        ∃ c p, convert_ci_to_usd l.price l.currency = .ok (c, p) ∧ 200000 ≤ p :=
      fun b2 h2 => hall b2 (List.mem_cons_of_mem _ h2)
    obtain ⟨dn2, dd2, hrun2, hperm2⟩ := ih
      { existing_listings_cache := st.existing_listings_cache,
        duplicates_found := st.duplicates_found ++ dd1,
        new_listings := st.new_listings ++ dn1 } hrest
    refine ⟨dn1 ++ dn2, dd1 ++ dd2, ?_, ?_⟩
    · simp only [processAllBatches, hrun1]
      rw [hrun2]
      simp
    · refine List.perm_iff_count.2 fun a => ?_
      have e1 := hperm1.count_eq a
      have e2 := hperm2.count_eq a
      simp only [List.count_append, List.map_append] at e1 e2 ⊢
      simp only [allCandidates, List.foldr_cons, List.count_append]
      have : allCandidates rest = rest.foldr (fun b acc => b.2 ++ acc) [] := rfl
      rw [← this]
      omega

end DuplicateDetector

/-- C1, counterexample: a single candidate below the 200000 USD threshold is
dropped from both outputs, so len(new) + len(duplicates) is 0 while the
input holds 1 candidate: totality fails as stated. -/
theorem C1_counterexample :
    DuplicateDetector.processAllBatches { existing_listings_cache := [] }
      [("u", [{ price := "100", currency := "US$" }])] =
    .ok { existing_listings_cache := [], duplicates_found := [], new_listings := [] } ∧
    (allCandidates [("u", [{ price := "100", currency := "US$" }])]).length = 1 := by
  constructor
  · have h0 : stripCommas "100" = "100" := by decide
    have h1 : parseFloatLit "100" = some ⟨false, 100, 0, 0⟩ := by decide
    simp [DuplicateDetector.processAllBatches, DuplicateDetector.processListingsFrom,
      DuplicateDetector.process_listing, DuplicateDetector.convert_ci_to_usd, pyFloat,
      h0, h1, NumLit.val]
    norm_num
  · rfl

/-- C1, amended: for batches whose candidates all convert successfully at or
above the 200000 USD threshold, partitioning is total (new plus duplicates
counts every candidate) and, when the candidate links are pairwise distinct,
no link appears in both outputs. -/
theorem C1_partition_amended (bs : List (String × List Listing)) (cache : List CacheEntry)
    (hall : ∀ b ∈ bs, ∀ l ∈ b.2, ∃ c p,
      DuplicateDetector.convert_ci_to_usd l.price l.currency = .ok (c, p) ∧ 200000 ≤ p)
    (hnd : ((allCandidates bs).map Listing.link).Nodup) :
    ∃ st : DuplicateDetector.DetectorState,
      DuplicateDetector.processAllBatches { existing_listings_cache := cache } bs = .ok st ∧
      st.new_listings.length + st.duplicates_found.length = (allCandidates bs).length ∧
      ∀ lk, lk ∈ st.new_listings.map (fun pr => pr.base.link) →
        lk ∉ st.duplicates_found.map (fun d => d.1.base.link) := by
  obtain ⟨dn, dd, hrun, hperm⟩ :=
    DuplicateDetector.processAllBatches_ok bs { existing_listings_cache := cache } hall
  refine ⟨⟨cache, dd, dn⟩, by simpa using hrun, ?_, ?_⟩
  · have hl := hperm.length_eq
    simp only [List.length_append, List.length_map] at hl
    simpa using hl
  · have hnp : (dn.map (fun pr => pr.base.link) ++
        dd.map (fun d => d.1.base.link)).Nodup := by
      have hp2 := (hperm.map Listing.link).nodup_iff.2 hnd
      simpa [List.map_map, Function.comp] using hp2
    intro lk h1 h2
    exact (List.nodup_append.1 hnp).2.2 h1 h2

/-- C1, witness: the amended statement on a one-candidate batch. -/
theorem C1_partition_amended_witness :
    ∃ st : DuplicateDetector.DetectorState,
      DuplicateDetector.processAllBatches { existing_listings_cache := [] }
        [("u", [{ name := "x", price := "250000", currency := "US$", link := "a" }])] =
        .ok st ∧
      st.new_listings.length + st.duplicates_found.length =
        (allCandidates
          [("u", [{ name := "x", price := "250000", currency := "US$", link := "a" }])]).length ∧
      ∀ lk, lk ∈ st.new_listings.map (fun pr => pr.base.link) →
        lk ∉ st.duplicates_found.map (fun d => d.1.base.link) :=
  C1_partition_amended _ _
    (by
      intro b hb l hl
      simp only [List.mem_singleton] at hb
      subst hb
      simp only [List.mem_singleton] at hl
      subst hl
      refine ⟨"US$", 250000, ?_, by norm_num⟩
      have hp : parseFloatLit (stripCommas "250000") = some ⟨false, 250000, 0, 0⟩ := by decide
      simp [DuplicateDetector.convert_ci_to_usd, pyFloat, hp, NumLit.val])
    (by decide)

/-- C6: the match result is non-null exactly when some reference row passes
both gates (price within the 100 USD tolerance and fuzzy similarity of the
lowercased trimmed names at least 85), and a returned similarity score is
always at least 85. -/
theorem C6_match_iff (cache : List CacheEntry) (new_name : String) (p : ℚ) :
    ((DuplicateDetector.check_duplicate cache new_name p).isSome ↔
      ∃ e ∈ cache, |p - e.price_usd| ≤ 100 ∧
        85 ≤ DuplicateDetector.fuzzy_name_match new_name e.name) ∧
    ∀ e s, DuplicateDetector.check_duplicate cache new_name p = some (e, s) → 85 ≤ s :=
  ⟨DuplicateDetector.check_duplicate_isSome_iff cache new_name p,
   fun e s h => DuplicateDetector.check_duplicate_score_ge cache new_name p e s h⟩

/-- The pagination loop on its final page: fewer remaining rows than the page
size means one read, returning exactly the remaining rows. -/
theorem loadPages_last (table : List RefRow) (offset : ℕ)
    (h : table.length - offset < 1000) :
    loadPages table offset = (table.drop offset, 1) := by
  rw [loadPages]
  by_cases he : ((table.drop offset).take 1000).isEmpty
  · rw [dif_pos he]
    have : (table.drop offset).take 1000 = table.drop offset :=
      List.take_of_length_le (by simp; omega)
    rw [this] at he
    simp only [List.isEmpty_iff] at he
    rw [he]
  · rw [dif_neg he, dif_pos (by simp; omega)]
    have : (table.drop offset).take 1000 = table.drop offset :=
      List.take_of_length_le (by simp; omega)
    rw [this]

/-- The pagination loop on a full page: one read of 1000 rows, then the loop
continues 1000 rows further on. -/
theorem loadPages_step (table : List RefRow) (offset : ℕ)
    (h : 1000 ≤ table.length - offset) :
    loadPages table offset =
      ((table.drop offset).take 1000 ++ (loadPages table (offset + 1000)).1,
        (loadPages table (offset + 1000)).2 + 1) := by
  rw [loadPages]
  rw [dif_neg (by simp [List.isEmpty_iff]; omega), dif_neg (by simp; omega)]

/-- C8: a reference table of exactly 2500 rows is loaded in exactly 3 page
reads (1000, 1000 and 500 rows) and the accumulated cache is exactly the
table: every row once, none lost. -/
theorem C8_pagination (table : List RefRow) (h : table.length = 2500) :
    loadPages table 0 = (table, 3) := by
  have h1 : loadPages table 2000 = (table.drop 2000, 1) := loadPages_last _ _ (by omega)
  have h2 : loadPages table 1000 =
      ((table.drop 1000).take 1000 ++ table.drop 2000, 2) := by
    rw [loadPages_step _ _ (by omega), h1]
  have h3 : loadPages table 0 =
      ((table.drop 0).take 1000 ++ ((table.drop 1000).take 1000 ++ table.drop 2000), 3) := by
    rw [loadPages_step _ _ (by omega), h2]
  rw [h3]
  have h4 : (table.drop 1000).take 1000 ++ table.drop 2000 = table.drop 1000 := by
    have hd : table.drop 2000 = (table.drop 1000).drop 1000 := by
      rw [List.drop_drop]
    rw [hd, List.take_append_drop]
  rw [List.drop_zero, h4, List.take_append_drop]

/-- C8, witness: the pagination statement on a concrete 2500-row table. -/
theorem C8_pagination_witness :
    loadPages (List.replicate 2500 (default : RefRow)) 0 =
      (List.replicate 2500 (default : RefRow), 3) :=
  C8_pagination _ (List.length_replicate 2500 default)

/-- C9: listing-type normalization equals the keyword-priority lookup the
specification lists, in that order, with Home for an empty or unrecognized
raw type; in particular Land / Duplex normalizes to Land. -/
theorem C9_normalize_priority (raw : String) :
    SupabaseUtils.normalize_listing_type raw = specNormalizeType raw ∧
    SupabaseUtils.normalize_listing_type "Land / Duplex" = "Land" := by
  constructor
  · by_cases h : raw = ""
    · subst h
      decide
    · simp only [SupabaseUtils.normalize_listing_type, specNormalizeType, specFirstHit,
        keywordPriorityTable, containsAnyKeyword, List.any_cons, List.any_nil,
        Bool.or_false, if_neg h]
      split_ifs <;> rfl
  · decide

/-- C10: processing a candidate never changes the in-memory reference cache;
consequently two identical candidates in one batch, above the threshold and
matching no cache entry, are both routed to new_listings. -/
theorem C10_cache_immutable (st st2 : DuplicateDetector.DetectorState)
    (l l2 : Listing) (u : String) (cache : List CacheEntry) (c : String) (p : ℚ) :
    (DuplicateDetector.process_listing st l u = .ok st2 →
      st2.existing_listings_cache = st.existing_listings_cache) ∧
    (DuplicateDetector.convert_ci_to_usd l2.price l2.currency = .ok (c, p) →
      200000 ≤ p →
      DuplicateDetector.check_duplicate cache l2.name p = none →
      DuplicateDetector.processListingsFrom { existing_listings_cache := cache } u [l2, l2] =
        .ok { existing_listings_cache := cache, duplicates_found := [],
              new_listings := [DuplicateDetector.mkProcessed l2 p u,
                DuplicateDetector.mkProcessed l2 p u] }) := by
  constructor
  · intro h
    cases hc : DuplicateDetector.convert_ci_to_usd l.price l.currency with
    | error e =>
      simp [DuplicateDetector.process_listing, hc] at h
    | ok pr =>
      simp only [DuplicateDetector.process_listing, hc] at h
      by_cases hlt : pr.2 < 200000
      · rw [if_pos hlt] at h
        injection h with h2
        rw [← h2]
      · rw [if_neg hlt] at h
        cases hd : DuplicateDetector.check_duplicate st.existing_listings_cache l.name pr.2 with
        | some m =>
          simp only [hd] at h
          injection h with h2
          rw [← h2]
        | none =>
          simp only [hd] at h
          injection h with h2
          rw [← h2]
  · intro h1 h2 h3
    simp [DuplicateDetector.processListingsFrom, DuplicateDetector.process_listing,
      h1, not_lt.2 h2, h3]
